import Mathlib

/-!
xgopher: the animation state machine, the message queue and the sprite mirror

A shallow embedding of `xgopher.c`.

* C `int` variables (`x`, `y`, `dx`, `dy`, `step`, `width`, `height`) are `Int`; the
  values stay far inside the 32-bit range for real display sizes, so no wrap-around is
  modelled.  `/` and `%` of C are `Int.tdiv` and `Int.tmod` (truncation toward zero).
* A `char*` that may be `NULL` is an `Option String`; `strcmp (s, "lit") == 0` is
  equality with `some "lit"`, and `strcmp` on `NULL` is a fault.
* The `MSG` linked list is a `List MSG`: the head node is the head of the list and the
  `next` pointer is the tail.
* `curpms` is the index into `pmss` of the frame it points to, `none` while it is
  uninitialised.
* A failed `assert` and a `NULL` dereference end the run: the functions that can hit
  one return `Except Fault _`.
-/

namespace XGopher

/-! ## Data model -/

/-- The ways the program can abort. -/
inductive Fault where
  | assertFailed
  | nullDeref
  deriving DecidableEq, Repr

deriving instance DecidableEq for Except

/-- The node type `MSG` (lines 26-31); `next` is the tail of the list holding the node. -/
structure MSG where
  method : Option String
  content : Option String
  link : Option String
  deriving DecidableEq, Repr

/-- The type `State` (lines 272-279). -/
inductive State where
  | S_START_WALK
  | S_WALK
  | S_START_JUMP
  | S_JUMP
  | S_START_PAUSE
  | S_PAUSE
  deriving DecidableEq, Repr

/-- The type `struct timeval`. -/
structure timeval where
  tv_sec : Int
  tv_usec : Int
  deriving DecidableEq, Repr

/-- The constant `move_interval` (line 306): 50 ms. -/
def move_interval : timeval := { tv_sec := 0, tv_usec := 50000 }

/-- The constant `pause_interval` (line 307): 5 s. -/
def pause_interval : timeval := { tv_sec := 5, tv_usec := 0 }

/-- The value `timerclear` stores. -/
def timer_zero : timeval := { tv_sec := 0, tv_usec := 0 }

/-- The test `timerisset (&tv)`. -/
def timerisset (tv : timeval) : Bool :=
  tv.tv_sec != 0 || tv.tv_usec != 0

/-- The local variables of `main` that the main loop reads and writes. -/
structure Config where
  state : State
  step : Int
  x : Int
  y : Int
  dx : Int
  dy : Int
  msg : List MSG
  curpms : Option Int
  timeout : timeval
  deriving DecidableEq, Repr

/-! ## The message queue -/

/-- The function `free_msg` (lines 261-270): drop the head node, return `top->next`. -/
def free_msg (top : List MSG) : List MSG :=
  match top with
  | [] => []
  | _ :: next => next

/-- The tail append of lines 463-467: walk `q = q->next` while `q->next` is set, then
link the new node; an empty queue becomes the new node. -/
def enqueue (msg : List MSG) (newmsg : MSG) : List MSG :=
  match msg with
  | [] => [newmsg]
  | q :: next =>
    match next with
    | [] => [q, newmsg]
    | _ :: _ => q :: enqueue next newmsg

/-! ## The state machine -/

/-- The index expression `(step%4)+(dx>0?0:5)` of lines 391 and 406. -/
def walk_frame (step dx : Int) : Int :=
  Int.tmod step 4 + (if dx > 0 then 0 else 5)

/-- The index expression `4+(dx>0?0:5)` of line 411. -/
def wait_frame (dx : Int) : Int :=
  4 + (if dx > 0 then 0 else 5)

/-- The part of `case S_WALK` after the message dispatch (lines 384-393); `r` is what
`rand()` returns. -/
def walk_step (r : Nat) (c : Config) : Config :=
  if r % 40 = 0 then
    { c with state := State.S_START_JUMP }
  else
    { c with
      step := c.step + 1
      x := c.x + c.dx
      y := c.y + c.dy
      curpms := some (walk_frame (c.step + 1) c.dx)
      timeout := move_interval }

/-- One pass through the `switch (state)` of lines 365-420; `r` is what `rand()` returns
if this pass calls it. -/
def eval (height : Int) (r : Nat) (c : Config) : Except Fault Config :=
  match c.state with
  | State.S_START_WALK =>
    .ok { c with state := State.S_WALK, step := 0, dy := 0, y := height - 200 }
  | State.S_WALK =>
    match c.msg with
    | [] => .ok (walk_step r c)
    | m :: _ =>
      match m.method with
      | none => .error Fault.nullDeref
      | some method =>
        if method = "message" then
          .ok { c with state := State.S_START_PAUSE }
        else if method = "jump" then
          .ok { c with msg := free_msg c.msg, state := State.S_START_JUMP }
        else
          .ok (walk_step r c)
  | State.S_START_JUMP =>
    .ok { c with dy := -20, state := State.S_JUMP }
  | State.S_JUMP =>
    let x := c.x + Int.tdiv c.dx 2
    let y := c.y + c.dy
    let dy := c.dy + 2
    if y > height - 200 then
      .ok { c with x := x, y := y, dy := dy, state := State.S_START_WALK }
    else
      .ok { c with x := x, y := y, dy := dy,
                   curpms := some (walk_frame c.step c.dx), timeout := move_interval }
  | State.S_START_PAUSE =>
    match c.msg with
    | [] => .error Fault.assertFailed
    | m :: _ =>
      match m.method with
      | none => .error Fault.nullDeref
      | some method =>
        if method = "message" then
          .ok { c with curpms := some (wait_frame c.dx), timeout := pause_interval,
                       state := State.S_PAUSE }
        else
          .error Fault.assertFailed
  | State.S_PAUSE =>
    match c.msg with
    | [] => .error Fault.assertFailed
    | m :: _ =>
      match m.method with
      | none => .error Fault.nullDeref
      | some method =>
        if method = "message" then
          .ok { c with msg := free_msg c.msg, state := State.S_START_WALK }
        else
          .error Fault.assertFailed

/-- The bounce check of line 422. -/
def bounce (width : Int) (c : Config) : Config :=
  if (c.dx < 0 && c.x < 0) || (c.dx > 0 && c.x > width - 200) then
    { c with dx := -c.dx }
  else
    c

/-- The values of the variables when the main loop is entered (lines 288-304, 349-350,
360). -/
def startup (height : Int) : Config :=
  { state := State.S_START_WALK
    step := 0
    x := -200
    y := height - 200
    dx := 10
    dy := 0
    msg := []
    curpms := none
    timeout := timer_zero }

/-- The main loop's `while (!timerisset(&timeout)) { switch ... }` (lines 364-421),
run for at most `fuel` passes through the switch; pass `i` gets `rnd i` from `rand()`.
The result is `none` when the passes are used up before a timeout is armed. -/
def drain (height : Int) (rnd : Nat → Nat) (fuel : Nat) (c : Config) :
    Option (Except Fault Config) :=
  if timerisset c.timeout then
    some (.ok c)
  else
    match fuel with
    | 0 => none
    | fuel + 1 =>
      match eval height (rnd 0) c with
      | .error f => some (.error f)
      | .ok c1 => drain height (fun i => rnd (i + 1)) fuel c1

/-- The configuration after `k` passes through the switch, whatever the timeout is. -/
def evals (height : Int) (rnd : Nat → Nat) (k : Nat) (c : Config) : Except Fault Config :=
  match k with
  | 0 => .ok c
  | k + 1 =>
    match evals height rnd k c with
    | .error f => .error f
    | .ok c1 => eval height (rnd k) c1

/-! ## The event pump -/

/-- A decoded JSON value, as the JSON library hands it to the program. -/
inductive Json where
  | null
  | bool (b : Bool)
  | integer (i : Int)
  | real (mantissa exponent : Int)
  | string (s : String)
  | array (items : List Json)
  | object (members : List (String × Json))

/-- The library call `json_object_get`: `NULL` unless the value is an object holding
the key. -/
def json_object_get (json : Json) (key : String) : Option Json :=
  match json with
  | Json.object members => members.lookup key
  | _ => none

/-- The library call `json_string_value`: `NULL` unless the value is a string. -/
def json_string_value (json : Json) : Option String :=
  match json with
  | Json.string s => some s
  | _ => none

/-- The library call `strdup`; on `NULL` it dereferences a null pointer. -/
def strdup (s : Option String) : Except Fault String :=
  match s with
  | none => .error Fault.nullDeref
  | some s => .ok s

/-- The pattern of lines 456-461: `v = json_object_get (body, key);
if (v != NULL) field = strdup (json_string_value (v));`, the field being `NULL` before. -/
def read_field (body : Json) (key : String) : Except Fault (Option String) :=
  match json_object_get body key with
  | none => .ok none
  | some v =>
    match strdup (json_string_value v) with
    | .error f => .error f
    | .ok s => .ok (some s)

/-- The `PropertyNotify` branch (lines 437-473) as a function of the queue.  `prop` is
the property text when `XGetWindowProperty` succeeds with a value, `json_loads` is the
library's decoder (`none` when the text is not valid JSON). -/
def property_notify (json_loads : String → Option Json) (prop : Option String)
    (msg : List MSG) : Except Fault (List MSG) :=
  match prop with
  | none => .ok msg
  | some text =>
    match json_loads text with
    | none => .ok msg
    | some body =>
      match read_field body "method" with
      | .error f => .error f
      | .ok method =>
        match read_field body "content" with
        | .error f => .error f
        | .ok content =>
          match read_field body "link" with
          | .error f => .error f
          | .ok link =>
            .ok (enqueue msg { method := method, content := content, link := link })

/-- The `Expose` branch (lines 474-482): the text it draws over the sprite, if any.
`count` is `event.xexpose.count`. -/
def expose (count : Int) (c : Config) : Except Fault (Option String) :=
  if count = 0 then
    if c.state = State.S_PAUSE then
      match c.msg with
      | [] => .error Fault.nullDeref
      | m :: _ => .ok m.content
    else
      .ok none
  else
    .ok none

/-! ## Reachable configurations -/

/-- The configurations the main loop can be in: from `startup`, by passes through the
switch (any `rand()` outcome), by the bounce check, by the event pump appending a
message that satisfies `arrives`, and by the scheduler rewriting `timeout`. -/
inductive Reachable (arrives : MSG → Prop) (width height : Int) : Config → Prop where
  | start : Reachable arrives width height (startup height)
  | pass (r : Nat) (c c1 : Config) :
      Reachable arrives width height c → eval height r c = .ok c1 →
      Reachable arrives width height c1
  | edge (c : Config) :
      Reachable arrives width height c → Reachable arrives width height (bounce width c)
  | notify (m : MSG) (c : Config) :
      Reachable arrives width height c → arrives m →
      Reachable arrives width height { c with msg := enqueue c.msg m }
  | timer (tv : timeval) (c : Config) :
      Reachable arrives width height c →
      Reachable arrives width height { c with timeout := tv }

/-- A message whose `method` is a string. -/
def has_method (m : MSG) : Prop := m.method.isSome = true

/-- No restriction on the message. -/
def any_msg (_ : MSG) : Prop := True

/-! ## Sprites -/

/-- An `XImage` as the program uses it: its size, its depth and its pixels, row by row.
A pixel of an image of depth `d` is a number below `2 ^ d`. -/
structure XImage where
  width : Nat
  height : Nat
  depth : Nat
  data : List Nat
  deriving DecidableEq, Repr

/-- The library call `XGetPixel`. -/
def XGetPixel (img : XImage) (x y : Nat) : Nat :=
  img.data.getD (y * img.width + x) 0

/-- The library call `XPutPixel`: the pixel is cut to the depth of the image. -/
def XPutPixel (img : XImage) (x y : Nat) (pixel : Nat) : XImage :=
  { img with data := img.data.set (y * img.width + x) (pixel % 2 ^ img.depth) }

/-- The library call `XSubImage`: a new image of the same depth holding the
`w` by `h` rectangle of `img` at `(x, y)`. -/
def XSubImage (img : XImage) (x y w h : Nat) : XImage :=
  { width := w
    height := h
    depth := img.depth
    data := (List.range (w * h)).map (fun i => XGetPixel img (x + i % w) (y + i / w)) }

/-- The type `ImageSprite` (lines 33-36); a `NULL` image is `none`. -/
structure ImageSprite where
  body : Option XImage
  mask : Option XImage
  deriving DecidableEq, Repr

/-- A server-side pixmap: its pixels, row by row. -/
structure Pixmap where
  width : Nat
  height : Nat
  data : List Nat
  deriving DecidableEq, Repr

/-- The type `PixmapSprite` (lines 38-43); the pixmap `None` is `none`. -/
structure PixmapSprite where
  body : Option Pixmap
  mask : Option Pixmap
  width : Nat
  height : Nat
  deriving DecidableEq, Repr

/-- Whether the allocations of one call succeed: the `malloc` of the sprite record,
the allocation of its body and the allocation of its mask. -/
structure Alloc where
  sprite : Bool
  body : Bool
  mask : Bool
  deriving DecidableEq, Repr

/-- The function `is_image_sprite_valid` (lines 73-77). -/
def is_image_sprite_valid (ims : Option ImageSprite) : Bool :=
  match ims with
  | none => false
  | some s => s.body.isSome && s.mask.isSome

/-- The function `is_pixmap_sprite_valid` (lines 79-83). -/
def is_pixmap_sprite_valid (pms : Option PixmapSprite) : Bool :=
  match pms with
  | none => false
  | some s => s.body.isSome && s.mask.isSome

/-- The four images the mirror loop works on: it reads the two of `src` and writes the
two of `dst`. -/
structure Mirror where
  src_body : XImage
  src_mask : XImage
  dst_body : XImage
  dst_mask : XImage
  deriving DecidableEq, Repr

/-- The body of the inner loop (lines 155-156). -/
def mirror_pixel (w y : Nat) (m : Mirror) (x : Nat) : Mirror :=
  { m with
    dst_body := XPutPixel m.dst_body (w - x - 1) y (XGetPixel m.src_body x y)
    dst_mask := XPutPixel m.dst_mask (w - x - 1) y (XGetPixel m.src_mask x y) }

/-- The inner loop `for (x=0; x<w; x++)` (lines 154-157). -/
def mirror_row (w : Nat) (m : Mirror) (y : Nat) : Mirror :=
  (List.range w).foldl (mirror_pixel w y) m

/-- The outer loop `for (y=0; y<h; y++)` (lines 153-158). -/
def mirror_rows (w h : Nat) (m : Mirror) : Mirror :=
  (List.range h).foldl (mirror_row w) m

/-- The function `create_horizontal_reverse_image_sprite` (lines 126-161).  The result
is `none` for `NULL`; otherwise it is the source sprite as the call leaves it and the new
sprite. -/
def create_horizontal_reverse_image_sprite (mem : Alloc) (src : Option ImageSprite) :
    Except Fault (Option (ImageSprite × ImageSprite)) :=
  if is_image_sprite_valid src then
    match src with
    | some { body := some body, mask := some mask } =>
      if body.width = mask.width ∧ body.height = mask.height then
        let w := body.width
        let h := body.height
        if mem.sprite then
          let dst : ImageSprite :=
            { body := if mem.body then some (XSubImage body 0 0 w h) else none
              mask := if mem.mask then some (XSubImage mask 0 0 w h) else none }
          if is_image_sprite_valid (some dst) then
            match dst.body, dst.mask with
            | some b, some k =>
              let m := mirror_rows w h
                { src_body := body, src_mask := mask, dst_body := b, dst_mask := k }
              .ok (some ({ body := some m.src_body, mask := some m.src_mask },
                         { body := some m.dst_body, mask := some m.dst_mask }))
            | _, _ => .ok none
          else
            .ok none
        else
          .ok none
      else
        .error Fault.assertFailed
    | _ => .ok none
  else
    .ok none

/-- The library calls `XCreatePixmap` and `XPutImage` over the whole `w` by `h` area:
the new pixmap with the pixels of the image drawn into it. -/
def XPutImage (img : XImage) (w h : Nat) : Pixmap :=
  { width := w
    height := h
    data := (List.range (w * h)).map (fun i => XGetPixel img (i % w) (i / w)) }

/-- The pixel of a pixmap at `(x, y)`. -/
def Pixmap.pixel (p : Pixmap) (x y : Nat) : Nat :=
  p.data.getD (y * p.width + x) 0

/-- The function `convert_image_sprite_to_pixmap_sprite` (lines 163-197). -/
def convert_image_sprite_to_pixmap_sprite (mem : Alloc) (src : Option ImageSprite) :
    Except Fault (Option PixmapSprite) :=
  if is_image_sprite_valid src then
    match src with
    | some { body := some body, mask := some mask } =>
      if body.width = mask.width ∧ body.height = mask.height then
        if mem.sprite then
          let w := body.width
          let h := body.height
          let dst : PixmapSprite :=
            { body := if mem.body then some (XPutImage body w h) else none
              mask := if mem.mask then some (XPutImage mask w h) else none
              width := w
              height := h }
          if is_pixmap_sprite_valid (some dst) then
            .ok (some dst)
          else
            .ok none
        else
          .ok none
      else
        .error Fault.assertFailed
    | _ => .ok none
  else
    .ok none

/-- One round of the loop of lines 332-340: `ims` is what `create_image_sprite_from_data`
returned for `xpms[i]`; `mem i`, `mem (i + 5)` and `mem (i + 10)` say whether the
allocations of the three calls succeed. -/
def load_frame (xpm : Nat → Option ImageSprite) (mem : Nat → Alloc)
    (pmss : List (Option PixmapSprite)) (i : Nat) :
    Except Fault (List (Option PixmapSprite)) :=
  let ims := xpm i
  match create_horizontal_reverse_image_sprite (mem i) ims with
  | .error f => .error f
  | .ok r =>
    let rims := r.map (fun p => p.2)
    let ims := match r with
      | none => ims
      | some p => some p.1
    match convert_image_sprite_to_pixmap_sprite (mem (i + 5)) ims with
    | .error f => .error f
    | .ok front =>
      match convert_image_sprite_to_pixmap_sprite (mem (i + 10)) rims with
      | .error f => .error f
      | .ok back => .ok ((pmss.set i front).set (i + 5) back)

/-- The loop of lines 332-340 filling `pmss[10]`. -/
def load_frames (xpm : Nat → Option ImageSprite) (mem : Nat → Alloc) :
    Except Fault (List (Option PixmapSprite)) :=
  (List.range 5).foldlM (load_frame xpm mem) (List.replicate 10 none)

/-! ## Derived notions used by the statements -/

/-- Read the head and call `free_msg`, `n` times or until the queue is empty: the
messages read, in the order read, and the queue left. -/
def dequeues (n : Nat) (q : List MSG) : List MSG × List MSG :=
  match n with
  | 0 => ([], q)
  | n + 1 =>
    match q with
    | [] => ([], [])
    | m :: _ =>
      let r := dequeues n (free_msg q)
      (m :: r.1, r.2)

/-- The state is one of the four grounded ones: walking, about to jump, or pausing. -/
def on_ground (s : State) : Prop :=
  s = State.S_WALK ∨ s = State.S_START_JUMP ∨ s = State.S_START_PAUSE ∨ s = State.S_PAUSE

/-- The state is one of the two pause states. -/
def pausing (s : State) : Prop :=
  s = State.S_START_PAUSE ∨ s = State.S_PAUSE

/-- In a pause state the queue has a head and its method is `"message"`. -/
def pause_head (c : Config) : Prop :=
  pausing c.state → ∃ m rest, c.msg = m :: rest ∧ m.method = some "message"

/-- In a grounded state `y` is at ground level and `dy` is zero. -/
def grounded (height : Int) (c : Config) : Prop :=
  on_ground c.state → c.y = height - 200 ∧ c.dy = 0

/-- Every queued message has a method string. -/
def all_methods (c : Config) : Prop :=
  ∀ m ∈ c.msg, has_method m

/-- A timeout, the 50 ms one or the 5 s one, is armed and a frame is selected. -/
def yielded (c : Config) : Prop :=
  (c.timeout = move_interval ∨ c.timeout = pause_interval) ∧
  timerisset c.timeout = true ∧ c.curpms.isSome = true

/-- From `c` the drain loop stops, yielded, once it is given `k` passes or more. -/
def yields_within (height : Int) (k : Nat) (c : Config) : Prop :=
  ∀ (rnd : Nat → Nat) (fuel : Nat), k ≤ fuel →
    ∃ c1, drain height rnd fuel c = some (.ok c1) ∧ yielded c1

/-- The field of a decoded payload, when it is there and is a string. -/
def field_of (body : Json) (key : String) : Option String :=
  (json_object_get body key).bind json_string_value

/-- The payload has no member `key`, or the member is a string. -/
def absent_or_string (body : Json) (key : String) : Prop :=
  json_object_get body key = none ∨ ∃ s, json_object_get body key = some (Json.string s)

/-- The image holds `width * height` pixels, all of them below `2 ^ depth`. -/
def XImage.wf (img : XImage) : Prop :=
  img.data.length = img.width * img.height ∧ ∀ p ∈ img.data, p < 2 ^ img.depth

/-- Frame `g` is the horizontal reflection of frame `f`: same size, and the pixel of `g`
at `(width - 1 - x, y)` is the pixel of `f` at `(x, y)`, for the body and for the mask. -/
def frame_mirror (f g : PixmapSprite) : Prop :=
  ∃ fb fm gb gm, f.body = some fb ∧ f.mask = some fm ∧ g.body = some gb ∧ g.mask = some gm ∧
    g.width = f.width ∧ g.height = f.height ∧
    ∀ x y, x < f.width → y < f.height →
      gb.pixel (f.width - 1 - x) y = fb.pixel x y ∧
      gm.pixel (f.width - 1 - x) y = fm.pixel x y

/-- A configuration in state `JUMP` as `START_JUMP` leaves it when it starts from the
ground. -/
def jump_start (height : Int) : Config :=
  { startup height with state := State.S_JUMP, dy := -20 }

/-! ## The message queue is first-in first-out -/

theorem enqueue_eq_append (q : List MSG) (m : MSG) : enqueue q m = q ++ [m] := by
  induction q with
  | nil => rfl
  | cons a t ih =>
    cases t with
    | nil => rfl
    | cons b t =>
      show a :: enqueue (b :: t) m = _
      rw [ih]; rfl

theorem foldl_enqueue (ms q : List MSG) : ms.foldl enqueue q = q ++ ms := by
  induction ms generalizing q with
  | nil => simp
  | cons a t ih => simp [ih, enqueue_eq_append]

theorem dequeues_length (q : List MSG) : dequeues q.length q = (q, []) := by
  induction q with
  | nil => rfl
  | cons a t ih => simp [dequeues, free_msg, ih]

/-- C7: messages appended one after the other to an empty queue come out of repeated
dequeueing (read the head, `free_msg`) in the order they went in, and the queue is then
empty; appending to any queue keeps the entries already there, in their order, and puts
the new message last. -/
theorem queue_fifo (ms : List MSG) :
    dequeues ms.length (ms.foldl enqueue []) = (ms, []) ∧
    (∀ k, k < ms.length → (free_msg^[k] (ms.foldl enqueue [])).head? = ms[k]?) ∧
    free_msg^[ms.length] (ms.foldl enqueue []) = [] ∧
    ∀ (q : List MSG) (m : MSG), enqueue q m = q ++ [m] := by
  have hq : ms.foldl enqueue [] = ms := by simp [foldl_enqueue]
  have hdrop : ∀ (k : Nat) (l : List MSG), free_msg^[k] l = l.drop k := by
    intro k
    induction k with
    | zero => intro l; rfl
    | succ k ih =>
      intro l
      rw [Function.iterate_succ_apply, ih]
      cases l <;> simp [free_msg]
  refine ⟨?_, ?_, ?_, enqueue_eq_append⟩
  · rw [hq]; exact dequeues_length ms
  · intro k _
    rw [hq, hdrop, List.head?_drop]
  · rw [hq, hdrop]; simp

/-! ## The bounce check -/

/-- C3, as stated, fails: on a screen 1000 wide, with `dx = 10` and `x = 1000 - 200`, the
bounce check leaves `dx` at `10`; it does not become `-10`. -/
theorem bounce_at_right_boundary_keeps_dx :
    ({ startup 600 with x := 1000 - 200 } : Config).dx = 10 ∧
    (bounce 1000 { startup 600 with x := 1000 - 200 }).dx = 10 ∧
    (bounce 1000 { startup 600 with x := 1000 - 200 }).dx ≠ -10 := by
  decide

/-- C3, amended: for every screen width, with `dx = 10` the bounce check turns `dx` into
`-10` exactly when `x > width - 200`; at `x = width - 200` it leaves `dx` at `10`, and it
changes no other variable. -/
theorem bounce_right_edge (width : Int) (c : Config) (hdx : c.dx = 10) :
    (c.x > width - 200 → bounce width c = { c with dx := -10 }) ∧
    (c.x = width - 200 → bounce width c = c) ∧
    ((bounce width c).dx = -10 ↔ c.x > width - 200) := by
  refine ⟨?_, ?_, ?_⟩
  · intro hx
    simp [bounce, hdx, hx]
  · intro hx
    simp [bounce, hdx, hx]
  · by_cases hx : c.x > width - 200
    · simp [bounce, hdx, hx]
    · simp [bounce, hdx, hx]

theorem bounce_right_edge_witness :
    ({ startup 600 with x := 801 } : Config).dx = 10 ∧
    (bounce 1000 { startup 600 with x := 801 }).dx = -10 :=
  ⟨by decide,
   (bounce_right_edge 1000 { startup 600 with x := 801 } (by decide)).2.2.mpr (by decide)⟩

/-! ## Single passes through the switch -/

/-- C6: in state `WALK` with a queue whose head has method `"jump"`, one pass, whatever
`rand()` would return, sets the state to `START_JUMP` and removes exactly the head: the
queue becomes its former tail, one entry shorter.  No timeout is armed and `x`, `y`,
`dx`, `dy`, `step` keep their values. -/
theorem walk_consumes_jump (height : Int) (r : Nat) (c : Config) (m : MSG) (rest : List MSG)
    (hs : c.state = State.S_WALK) (hq : c.msg = m :: rest) (hm : m.method = some "jump") :
    ∃ c1, eval height r c = .ok c1 ∧
      c1.state = State.S_START_JUMP ∧
      c1.msg = rest ∧ c1.msg.length + 1 = c.msg.length ∧
      c1.timeout = c.timeout ∧ c1.curpms = c.curpms ∧
      c1.x = c.x ∧ c1.y = c.y ∧ c1.dx = c.dx ∧ c1.dy = c.dy ∧ c1.step = c.step := by
  refine ⟨{ c with msg := rest, state := State.S_START_JUMP }, ?_, ?_⟩
  · simp [eval, hs, hq, hm, free_msg]
  · simp [hq]

theorem walk_consumes_jump_witness :
    ∃ c1, eval 600 7 { startup 600 with state := State.S_WALK,
                                        msg := [⟨some "jump", none, none⟩,
                                                ⟨some "message", some "hello", none⟩] }
        = .ok c1 ∧
      c1.state = State.S_START_JUMP ∧
      c1.msg = [⟨some "message", some "hello", none⟩] ∧
      c1.msg.length + 1 = 2 ∧
      c1.timeout = timer_zero ∧ c1.curpms = none ∧
      c1.x = -200 ∧ c1.y = 600 - 200 ∧ c1.dx = 10 ∧ c1.dy = 0 ∧ c1.step = 0 :=
  walk_consumes_jump 600 7
    { startup 600 with state := State.S_WALK,
                       msg := [⟨some "jump", none, none⟩,
                               ⟨some "message", some "hello", none⟩] }
    ⟨some "jump", none, none⟩ [⟨some "message", some "hello", none⟩] rfl rfl rfl

/-- C5: from state `WALK` with a queue whose head has method `"message"`, three passes
visit `START_PAUSE`, `PAUSE`, `START_WALK`.  The queue is the same after the first and
the second pass and is the original tail after the third.  The first and the third pass
leave the timeout as it is; the second arms the 5 s pause timeout and selects the
waiting frame, index 4 when `dx > 0` and index 9 otherwise. -/
theorem pause_cycle (height : Int) (r1 r2 r3 : Nat) (c : Config) (m : MSG) (rest : List MSG)
    (hs : c.state = State.S_WALK) (hq : c.msg = m :: rest)
    (hm : m.method = some "message") :
    ∃ c1 c2 c3,
      eval height r1 c = .ok c1 ∧ eval height r2 c1 = .ok c2 ∧ eval height r3 c2 = .ok c3 ∧
      c1.state = State.S_START_PAUSE ∧ c1.msg = m :: rest ∧ c1.timeout = c.timeout ∧
      c2.state = State.S_PAUSE ∧ c2.msg = m :: rest ∧ c2.timeout = pause_interval ∧
      c2.curpms = some (if c.dx > 0 then 4 else 9) ∧
      c3.state = State.S_START_WALK ∧ c3.msg = rest ∧ c3.timeout = c2.timeout ∧
      c3.curpms = c2.curpms := by
  refine ⟨{ c with state := State.S_START_PAUSE },
    { c with curpms := some (wait_frame c.dx), timeout := pause_interval,
             state := State.S_PAUSE },
    { c with curpms := some (wait_frame c.dx), timeout := pause_interval,
             msg := rest, state := State.S_START_WALK }, ?_, ?_, ?_, ?_⟩
  · simp [eval, hs, hq, hm]
  · simp [eval, hq, hm]
  · simp [eval, hq, hm, free_msg]
  · refine ⟨rfl, hq, rfl, rfl, hq, rfl, ?_, rfl, rfl, rfl, rfl⟩
    by_cases hdx : c.dx > 0 <;> simp [wait_frame, hdx]

theorem pause_cycle_witness :
    ∃ c1 c2 c3,
      eval 600 1 { startup 600 with state := State.S_WALK,
                                    msg := [⟨some "message", some "hello", none⟩] } = .ok c1 ∧
      eval 600 2 c1 = .ok c2 ∧ eval 600 3 c2 = .ok c3 ∧
      c1.state = State.S_START_PAUSE ∧ c1.msg = [⟨some "message", some "hello", none⟩] ∧
      c1.timeout = timer_zero ∧
      c2.state = State.S_PAUSE ∧ c2.msg = [⟨some "message", some "hello", none⟩] ∧
      c2.timeout = pause_interval ∧
      c2.curpms = some (if (10 : Int) > 0 then 4 else 9) ∧
      c3.state = State.S_START_WALK ∧ c3.msg = [] ∧ c3.timeout = c2.timeout ∧
      c3.curpms = c2.curpms :=
  pause_cycle 600 1 2 3
    { startup 600 with state := State.S_WALK,
                       msg := [⟨some "message", some "hello", none⟩] }
    ⟨some "message", some "hello", none⟩ [] rfl rfl rfl

/-! ## Invariants of the reachable configurations -/

theorem eval_grounded (height : Int) (r : Nat) (c c1 : Config)
    (hg : grounded height c) (he : eval height r c = .ok c1) : grounded height c1 := by
  obtain ⟨st, step, x, y, dx, dy, msg, cur, tmo⟩ := c
  cases st
  · simp [eval] at he; subst he; intro _; simp
  · have hg1 := hg (Or.inl rfl)
    simp at hg1
    obtain ⟨hy, hdy⟩ := hg1
    subst hy hdy
    simp only [eval] at he
    split at he
    · simp [walk_step] at he
      split at he <;> (subst he; intro _; simp)
    · split at he
      · simp at he
      · split at he
        · simp at he; subst he; intro _; simp
        · split at he
          · simp at he; subst he; intro _; simp
          · simp [walk_step] at he
            split at he <;> (subst he; intro _; simp)
  · simp [eval] at he; subst he; intro h; simp [on_ground] at h
  · simp only [eval] at he
    split at he
    · simp at he; subst he; intro h; simp [on_ground] at h
    · simp at he; subst he; intro h; simp [on_ground] at h
  · have hg1 := hg (Or.inr (Or.inr (Or.inl rfl)))
    simp only [eval] at he
    split at he
    · simp at he
    · split at he
      · simp at he
      · split at he
        · simp at he; subst he; intro _; exact hg1
        · simp at he
  · simp only [eval] at he
    split at he
    · simp at he
    · split at he
      · simp at he
      · split at he
        · simp at he; subst he; intro h; simp [on_ground] at h
        · simp at he

theorem eval_pause_head (height : Int) (r : Nat) (c c1 : Config)
    (hp : pause_head c) (he : eval height r c = .ok c1) : pause_head c1 := by
  obtain ⟨st, step, x, y, dx, dy, msg, cur, tmo⟩ := c
  cases st
  · simp [eval] at he; subst he; intro h; simp [pausing] at h
  · simp only [eval] at he
    split at he
    · simp [walk_step] at he
      split at he <;> (subst he; intro h; simp [pausing] at h)
    · rename_i m rest
      split at he
      · simp at he
      · rename_i method hmeth
        split at he
        · rename_i hmm
          simp at he; subst he; intro _
          exact ⟨m, rest, rfl, by rw [hmeth, hmm]⟩
        · split at he
          · simp at he; subst he; intro h; simp [pausing] at h
          · simp [walk_step] at he
            split at he <;> (subst he; intro h; simp [pausing] at h)
  · simp [eval] at he; subst he; intro h; simp [pausing] at h
  · simp only [eval] at he
    split at he
    · simp at he; subst he; intro h; simp [pausing] at h
    · simp at he; subst he; intro h; simp [pausing] at h
  · have hp1 := hp (Or.inl rfl)
    simp only [eval] at he
    split at he
    · simp at he
    · split at he
      · simp at he
      · split at he
        · simp at he; subst he; intro _; exact hp1
        · simp at he
  · simp only [eval] at he
    split at he
    · simp at he
    · split at he
      · simp at he
      · split at he
        · simp at he; subst he; intro h; simp [pausing] at h
        · simp at he

theorem eval_all_methods (height : Int) (r : Nat) (c c1 : Config)
    (ha : all_methods c) (he : eval height r c = .ok c1) : all_methods c1 := by
  have hsub : ∀ m ∈ c1.msg, m ∈ c.msg := by
    obtain ⟨st, step, x, y, dx, dy, msg, cur, tmo⟩ := c
    cases st
    · simp [eval] at he; subst he; intro m hm; exact hm
    · simp only [eval] at he
      split at he
      · simp [walk_step] at he
        split at he <;> (subst he; intro m hm; exact hm)
      · rename_i m0 rest
        split at he
        · simp at he
        · split at he
          · simp at he; subst he; intro m hm; exact hm
          · split at he
            · simp at he; subst he; intro m hm
              simp only [free_msg] at hm
              exact List.mem_cons_of_mem _ hm
            · simp [walk_step] at he
              split at he <;> (subst he; intro m hm; exact hm)
    · simp [eval] at he; subst he; intro m hm; exact hm
    · simp only [eval] at he
      split at he
      · simp at he; subst he; intro m hm; exact hm
      · simp at he; subst he; intro m hm; exact hm
    · simp only [eval] at he
      split at he
      · simp at he
      · split at he
        · simp at he
        · split at he
          · simp at he; subst he; intro m hm; exact hm
          · simp at he
    · simp only [eval] at he
      split at he
      · simp at he
      · rename_i m0 rest
        split at he
        · simp at he
        · split at he
          · simp at he; subst he; intro m hm
            simp only [free_msg] at hm
            exact List.mem_cons_of_mem _ hm
          · simp at he
  intro m hm
  exact ha m (hsub m hm)

theorem bounce_fields (width : Int) (c : Config) :
    (bounce width c).state = c.state ∧ (bounce width c).y = c.y ∧
    (bounce width c).dy = c.dy ∧ (bounce width c).msg = c.msg ∧
    (bounce width c).timeout = c.timeout ∧ (bounce width c).curpms = c.curpms := by
  unfold bounce
  split <;> simp

theorem enqueue_pause_head (c : Config) (m : MSG) (hp : pause_head c) :
    pause_head { c with msg := enqueue c.msg m } := by
  intro h
  obtain ⟨a, rest, hq, hm⟩ := hp h
  exact ⟨a, rest ++ [m], by simp [enqueue_eq_append, hq], hm⟩

theorem reachable_grounded (arrives : MSG → Prop) (width height : Int) (c : Config)
    (h : Reachable arrives width height c) : grounded height c := by
  induction h with
  | start => intro h; simp [startup, on_ground] at h
  | pass r c c1 _ he ih => exact eval_grounded height r c c1 ih he
  | edge c _ ih =>
    obtain ⟨h1, h2, h3, _⟩ := bounce_fields width c
    intro h
    rw [h1] at h
    rw [h2, h3]
    exact ih h
  | notify m c _ _ ih => exact ih
  | timer tv c _ ih => exact ih

theorem reachable_pause_head (arrives : MSG → Prop) (width height : Int) (c : Config)
    (h : Reachable arrives width height c) : pause_head c := by
  induction h with
  | start => intro h; simp [startup, pausing] at h
  | pass r c c1 _ he ih => exact eval_pause_head height r c c1 ih he
  | edge c _ ih =>
    obtain ⟨h1, _, _, h4, _⟩ := bounce_fields width c
    intro h
    rw [h1] at h
    rw [h4]
    exact ih h
  | notify m c _ _ ih => exact enqueue_pause_head c m ih
  | timer tv c _ ih => exact ih

theorem reachable_all_methods (width height : Int) (c : Config)
    (h : Reachable has_method width height c) : all_methods c := by
  induction h with
  | start => intro m hm; simp [startup] at hm
  | pass r c c1 _ he ih => exact eval_all_methods height r c c1 ih he
  | edge c _ ih =>
    obtain ⟨_, _, _, h4, _⟩ := bounce_fields width c
    intro m hm
    rw [h4] at hm
    exact ih m hm
  | notify m c _ hm ih =>
    intro a ha
    simp only [enqueue_eq_append, List.mem_append, List.mem_singleton] at ha
    rcases ha with ha | ha
    · exact ih a ha
    · rw [ha]; exact hm
  | timer tv c _ ih => exact ih

/-- C1: in every configuration reachable from startup by passes through the switch (any
`rand()` outcome), bounce checks, timeout changes and arrivals of messages that carry a
method string, a pause state (`START_PAUSE` or `PAUSE`) has a non-empty queue whose head
has method `"message"`.  So no pass through the switch fails an `assert`, and the
`Expose` handler never reads `msg->content` through a null `msg`. -/
theorem pause_states_have_message (width height : Int) (c : Config)
    (h : Reachable has_method width height c) :
    ((c.state = State.S_START_PAUSE ∨ c.state = State.S_PAUSE) →
      ∃ m rest, c.msg = m :: rest ∧ m.method = some "message") ∧
    (∀ r, eval height r c ≠ .error Fault.assertFailed) ∧
    (∀ r, c.state = State.S_START_PAUSE ∨ c.state = State.S_PAUSE →
      ∃ c1, eval height r c = .ok c1) ∧
    (∀ count, ∃ text, expose count c = .ok text) := by
  have hp := reachable_pause_head has_method width height c h
  refine ⟨hp, ?_, ?_, ?_⟩
  · intro r
    obtain ⟨st, step, x, y, dx, dy, msg, cur, tmo⟩ := c
    cases st
    · simp [eval]
    · simp only [eval]
      split
      · simp
      · split
        · simp
        · split
          · simp
          · split <;> simp
    · simp [eval]
    · simp only [eval]
      split <;> simp
    · obtain ⟨m, rest, hq, hm⟩ := hp (Or.inl rfl)
      simp only at hq
      simp [eval, hq, hm]
    · obtain ⟨m, rest, hq, hm⟩ := hp (Or.inr rfl)
      simp only at hq
      simp [eval, hq, hm]
  · intro r hs
    obtain ⟨m, rest, hq, hm⟩ := hp hs
    rcases hs with hs | hs
    · simp [eval, hs, hq, hm]
    · simp [eval, hs, hq, hm]
  · intro count
    unfold expose
    split
    · split
      · rename_i hs
        obtain ⟨m, rest, hq, _⟩ := hp (Or.inr hs)
        simp [hq]
      · exact ⟨none, rfl⟩
    · exact ⟨none, rfl⟩

theorem pause_states_have_message_witness :
    Reachable has_method 1000 600
      { state := State.S_PAUSE, step := 0, x := -200, y := 400, dx := 10, dy := 0,
        msg := [⟨some "message", some "hello", none⟩], curpms := some 4,
        timeout := pause_interval } ∧
    ∃ m rest, [(⟨some "message", some "hello", none⟩ : MSG)] = m :: rest ∧
      m.method = some "message" := by
  have h0 : Reachable has_method 1000 600 (startup 600) := Reachable.start
  have h1 := Reachable.pass 0 (startup 600)
    { state := State.S_WALK, step := 0, x := -200, y := 400, dx := 10, dy := 0,
      msg := [], curpms := none, timeout := timer_zero } h0 (by decide)
  have h2 := Reachable.notify ⟨some "message", some "hello", none⟩ _ h1 rfl
  have h3 := Reachable.pass 0 _
    { state := State.S_START_PAUSE, step := 0, x := -200, y := 400, dx := 10, dy := 0,
      msg := [⟨some "message", some "hello", none⟩], curpms := none,
      timeout := timer_zero } h2 (by decide)
  have h4 := Reachable.pass 0 _
    { state := State.S_PAUSE, step := 0, x := -200, y := 400, dx := 10, dy := 0,
      msg := [⟨some "message", some "hello", none⟩], curpms := some 4,
      timeout := pause_interval } h3 (by decide)
  exact ⟨h4, (pause_states_have_message 1000 600 _ h4).1 (Or.inr rfl)⟩

/-- C10: in every configuration reachable from startup, under any `rand()` outcomes and
any message arrivals, the states `WALK`, `START_JUMP`, `START_PAUSE` and `PAUSE` have
`y = height - 200` and `dy = 0`.  So a pass through `WALK` never changes `y`, and `dy`
is non-zero only in `JUMP` or in the `START_WALK` that ends the jump. -/
theorem grounded_states (width height : Int) (c : Config)
    (h : Reachable any_msg width height c) :
    ((c.state = State.S_WALK ∨ c.state = State.S_START_JUMP ∨
        c.state = State.S_START_PAUSE ∨ c.state = State.S_PAUSE) →
      c.y = height - 200 ∧ c.dy = 0) ∧
    (∀ r c1, c.state = State.S_WALK → eval height r c = .ok c1 → c1.y = c.y) ∧
    (c.dy ≠ 0 → c.state = State.S_JUMP ∨ c.state = State.S_START_WALK) := by
  have hg := reachable_grounded any_msg width height c h
  refine ⟨hg, ?_, ?_⟩
  · intro r c1 hs he
    obtain ⟨_, hdy⟩ := hg (Or.inl hs)
    obtain ⟨st, step, x, y, dx, dy, msg, cur, tmo⟩ := c
    simp only at hs hdy
    subst hs hdy
    simp only [eval] at he
    split at he
    · simp [walk_step] at he
      split at he <;> (subst he; simp)
    · split at he
      · simp at he
      · split at he
        · simp at he; subst he; simp
        · split at he
          · simp at he; subst he; simp
          · simp [walk_step] at he
            split at he <;> (subst he; simp)
  · intro hdy
    by_contra hns
    have hon : on_ground c.state := by
      unfold on_ground
      cases hst : c.state <;> simp_all
    exact hdy (hg hon).2

theorem grounded_states_witness :
    Reachable any_msg 1000 600
      { state := State.S_WALK, step := 1, x := -190, y := 400, dx := 10, dy := 0,
        msg := [], curpms := some 1, timeout := move_interval } ∧
    (400 : Int) = 600 - 200 ∧ (0 : Int) = 0 := by
  have h0 : Reachable any_msg 1000 600 (startup 600) := Reachable.start
  have h1 := Reachable.pass 0 (startup 600)
    { state := State.S_WALK, step := 0, x := -200, y := 400, dx := 10, dy := 0,
      msg := [], curpms := none, timeout := timer_zero } h0 (by decide)
  have h2 := Reachable.pass 1 _
    { state := State.S_WALK, step := 1, x := -190, y := 400, dx := 10, dy := 0,
      msg := [], curpms := some 1, timeout := move_interval } h1 (by decide)
  exact ⟨h2, (grounded_states 1000 600 _ h2).1 (Or.inl rfl)⟩

/-! ## The jump arc -/

theorem jump_arc (height : Int) (rnd : Nat → Nat) (c : Config)
    (hs : c.state = State.S_JUMP) (hy : c.y = height - 200) (hdy : c.dy = -20) (k : Nat) :
    k + 1 ≤ 21 →
    evals height rnd (k + 1) c = .ok
      { c with
        x := c.x + (k + 1) * Int.tdiv c.dx 2
        y := height - 200 + (k + 1) * ((k : Int) + 1 - 21)
        dy := -20 + 2 * ((k : Int) + 1)
        curpms := some (walk_frame c.step c.dx)
        timeout := move_interval } := by
  induction k with
  | zero =>
    intro _
    obtain ⟨st, step, x, y, dx, dy, msg, cur, tmo⟩ := c
    simp only at hs hy hdy
    subst hs hy hdy
    simp [evals, eval]
  | succ k ih =>
    intro hk
    have hk1 : (k : Int) ≤ 19 := by omega
    have hk0 : (0 : Int) ≤ k := by omega
    rw [evals, ih (by omega)]
    obtain ⟨st, step, x, y, dx, dy, msg, cur, tmo⟩ := c
    simp only at hs hy hdy
    subst hs hy hdy
    have hle : ¬ (height - 200 + ((k : Int) + 1) * ((k : Int) + 1 - 21) +
        (-20 + 2 * ((k : Int) + 1)) > height - 200) := by
      nlinarith
    simp only [eval, hle, if_false]
    congr 2 <;> (push_cast; ring)

/-- C2, as stated, fails: with a screen 600 high, `y` is back at ground level `400` after
the 21st pass through `JUMP` and was above it (smaller) after each of the passes 1 to 20,
so 21 is the first `k >= 1` with `y_k >= height - 200`; yet the state after the 21st
pass is still `JUMP`, with the 50 ms timeout armed, not `START_WALK`. -/
theorem jump_at_ground_level_not_landed :
    (evals 600 (fun _ => 0) 21 (jump_start 600)).map
        (fun c => (c.y, c.state, c.timeout)) = .ok (600 - 200, State.S_JUMP, move_interval) ∧
    ∀ j < 21, 1 ≤ j →
      (evals 600 (fun _ => 0) j (jump_start 600)).map (fun c => decide (c.y < 600 - 200))
        = .ok true := by
  decide

/-- C2, amended: for every screen height, from state `JUMP` with `y = height - 200` and
`dy = -20`, each of the first 21 passes leaves the state `JUMP` and arms the 50 ms
timeout, with `y_k = height - 200 + k (k - 21) <= height - 200` and `dy = -20 + 2 k`;
the 22nd pass, the first one with `y_k > height - 200`, sets the state to
`START_WALK`. -/
theorem jump_lands_past_ground (height : Int) (rnd : Nat → Nat) (c : Config)
    (hs : c.state = State.S_JUMP) (hy : c.y = height - 200) (hdy : c.dy = -20) :
    (∀ k : Nat, 1 ≤ k → k ≤ 21 →
      ∃ ck, evals height rnd k c = .ok ck ∧ ck.state = State.S_JUMP ∧
        ck.timeout = move_interval ∧
        ck.y = height - 200 + (k : Int) * ((k : Int) - 21) ∧ ck.y ≤ height - 200 ∧
        ck.dy = -20 + 2 * (k : Int)) ∧
    (∃ c22, evals height rnd 22 c = .ok c22 ∧ c22.state = State.S_START_WALK ∧
        c22.y = height - 200 + 22 ∧ c22.y > height - 200) := by
  constructor
  · intro k hk1 hk2
    obtain ⟨j, rfl⟩ : ∃ j, k = j + 1 := ⟨k - 1, by omega⟩
    refine ⟨_, jump_arc height rnd c hs hy hdy j hk2, hs, rfl, ?_, ?_, ?_⟩
    · simp only; push_cast; ring
    · have h0 : (0 : Int) ≤ j := by omega
      have h1 : (j : Int) ≤ 20 := by omega
      simp only
      nlinarith
    · simp only; push_cast; ring
  · rw [evals, jump_arc height rnd c hs hy hdy 20 (by omega)]
    obtain ⟨st, step, x, y, dx, dy, msg, cur, tmo⟩ := c
    simp only at hs hy hdy
    subst hs hy hdy
    have hgt : height - 200 + (((20 : Nat) : Int) + 1) * (((20 : Nat) : Int) + 1 - 21) +
        (-20 + 2 * (((20 : Nat) : Int) + 1)) > height - 200 := by
      norm_num
    simp only [eval, hgt, if_true]
    refine ⟨_, rfl, rfl, ?_, ?_⟩
    · simp only; norm_num
    · simp only; norm_num

theorem jump_lands_past_ground_witness :
    (jump_start 600).state = State.S_JUMP ∧ (jump_start 600).y = 600 - 200 ∧
    (jump_start 600).dy = -20 ∧
    ∃ c22, evals 600 (fun _ => 0) 22 (jump_start 600) = .ok c22 ∧
      c22.state = State.S_START_WALK ∧ c22.y = 600 - 200 + 22 ∧ c22.y > 600 - 200 :=
  ⟨rfl, rfl, rfl, (jump_lands_past_ground 600 (fun _ => 0) (jump_start 600) rfl rfl rfl).2⟩

/-! ## The drain loop stops -/

theorem drain_armed (height : Int) (rnd : Nat → Nat) (fuel : Nat) (c : Config)
    (h : timerisset c.timeout = true) : drain height rnd fuel c = some (.ok c) := by
  cases fuel <;> simp [drain, h]

theorem drain_pass (height : Int) (rnd : Nat → Nat) (fuel : Nat) (c c1 : Config)
    (h : timerisset c.timeout = false) (he : eval height (rnd 0) c = .ok c1) :
    drain height rnd (fuel + 1) c = drain height (fun i => rnd (i + 1)) fuel c1 := by
  simp [drain, h, he]

theorem yields_now (height : Int) (k : Nat) (c : Config) (h : yielded c) :
    yields_within height k c := by
  intro rnd fuel _
  exact ⟨c, drain_armed height rnd fuel c h.2.1, h⟩

theorem yields_after_pass (height : Int) (k : Nat) (c : Config)
    (h : timerisset c.timeout = false)
    (hnext : ∀ r, ∃ c1, eval height r c = .ok c1 ∧ yields_within height k c1) :
    yields_within height (k + 1) c := by
  intro rnd fuel hf
  obtain ⟨n, rfl⟩ : ∃ n, fuel = n + 1 := ⟨fuel - 1, by omega⟩
  obtain ⟨c1, he, hy⟩ := hnext (rnd 0)
  rw [drain_pass height rnd n c c1 h he]
  exact hy _ n (by omega)

theorem yields_mono (height : Int) (k n : Nat) (c : Config) (hkn : k ≤ n)
    (h : yields_within height k c) : yields_within height n c := by
  intro rnd fuel hf
  exact h rnd fuel (by omega)

theorem yields_fresh_jump (height : Int) (c : Config) (hs : c.state = State.S_JUMP)
    (hy : c.y = height - 200) (hdy : c.dy = -20) (ht : timerisset c.timeout = false) :
    yields_within height 1 c := by
  apply yields_after_pass height 0 c ht
  intro r
  have hland : ¬ (c.y + c.dy > height - 200) := by omega
  refine ⟨{ c with x := c.x + Int.tdiv c.dx 2, y := c.y + c.dy, dy := c.dy + 2,
                   curpms := some (walk_frame c.step c.dx), timeout := move_interval },
    by simp [eval, hs, hland], ?_⟩
  exact yields_now height 0 _ ⟨Or.inl rfl, rfl, rfl⟩

theorem yields_start_jump (height : Int) (c : Config) (hs : c.state = State.S_START_JUMP)
    (hy : c.y = height - 200) (ht : timerisset c.timeout = false) :
    yields_within height 2 c := by
  apply yields_after_pass height 1 c ht
  intro r
  refine ⟨{ c with dy := -20, state := State.S_JUMP }, by simp [eval, hs], ?_⟩
  exact yields_fresh_jump height _ rfl hy rfl ht

theorem yields_start_pause (height : Int) (c : Config) (hs : c.state = State.S_START_PAUSE)
    (hp : pause_head c) (ht : timerisset c.timeout = false) :
    yields_within height 1 c := by
  apply yields_after_pass height 0 c ht
  intro r
  obtain ⟨m, rest, hq, hm⟩ := hp (Or.inl hs)
  refine ⟨{ c with curpms := some (wait_frame c.dx), timeout := pause_interval,
                   state := State.S_PAUSE }, ?_, yields_now height 0 _ ?_⟩
  · simp [eval, hs, hq, hm]
  · exact ⟨Or.inr rfl, rfl, rfl⟩

theorem yields_walk_step (height : Int) (r : Nat) (c : Config) (hy : c.y = height - 200)
    (ht : timerisset c.timeout = false) :
    yields_within height 2 (walk_step r c) := by
  unfold walk_step
  split
  · exact yields_start_jump height _ rfl hy ht
  · exact yields_now height 2 _ ⟨Or.inl rfl, rfl, rfl⟩

theorem yields_walk (height : Int) (c : Config) (hs : c.state = State.S_WALK)
    (hy : c.y = height - 200) (ha : all_methods c) (ht : timerisset c.timeout = false) :
    yields_within height 3 c := by
  apply yields_after_pass height 2 c ht
  intro r
  cases hq : c.msg with
  | nil =>
    exact ⟨walk_step r c, by simp [eval, hs, hq], yields_walk_step height r c hy ht⟩
  | cons m rest =>
    have hm : has_method m := ha m (by rw [hq]; exact List.mem_cons_self _ _)
    obtain ⟨method, hmeth⟩ := Option.isSome_iff_exists.mp hm
    by_cases h1 : method = "message"
    · refine ⟨{ c with state := State.S_START_PAUSE }, by simp [eval, hs, hq, hmeth, h1], ?_⟩
      have hp2 : pause_head { c with state := State.S_START_PAUSE } := by
        intro _
        exact ⟨m, rest, hq, by rw [hmeth, h1]⟩
      exact yields_mono height 1 2 _ (by omega) (yields_start_pause height _ rfl hp2 ht)
    · by_cases h2 : method = "jump"
      · refine ⟨{ c with msg := free_msg c.msg, state := State.S_START_JUMP },
          by simp [eval, hs, hq, hmeth, h2], ?_⟩
        exact yields_start_jump height _ rfl hy ht
      · exact ⟨walk_step r c, by simp [eval, hs, hq, hmeth, h1, h2],
          yields_walk_step height r c hy ht⟩

theorem yields_start_walk (height : Int) (c : Config) (hs : c.state = State.S_START_WALK)
    (ha : all_methods c) (ht : timerisset c.timeout = false) :
    yields_within height 4 c := by
  apply yields_after_pass height 3 c ht
  intro r
  refine ⟨{ c with state := State.S_WALK, step := 0, dy := 0, y := height - 200 },
    by simp [eval, hs], ?_⟩
  exact yields_walk height _ rfl rfl ha ht

theorem yields_jump (height : Int) (c : Config) (hs : c.state = State.S_JUMP)
    (ha : all_methods c) (ht : timerisset c.timeout = false) :
    yields_within height 5 c := by
  apply yields_after_pass height 4 c ht
  intro r
  by_cases hland : c.y + c.dy > height - 200
  · refine ⟨{ c with x := c.x + Int.tdiv c.dx 2, y := c.y + c.dy, dy := c.dy + 2,
                     state := State.S_START_WALK }, by simp [eval, hs, hland], ?_⟩
    exact yields_start_walk height _ rfl ha ht
  · refine ⟨{ c with x := c.x + Int.tdiv c.dx 2, y := c.y + c.dy, dy := c.dy + 2,
                     curpms := some (walk_frame c.step c.dx), timeout := move_interval },
      by simp [eval, hs, hland], ?_⟩
    exact yields_now height 4 _ ⟨Or.inl rfl, rfl, rfl⟩

theorem yields_pause (height : Int) (c : Config) (hs : c.state = State.S_PAUSE)
    (hp : pause_head c) (ha : all_methods c) (ht : timerisset c.timeout = false) :
    yields_within height 5 c := by
  apply yields_after_pass height 4 c ht
  intro r
  obtain ⟨m, rest, hq, hm⟩ := hp (Or.inr hs)
  refine ⟨{ c with msg := free_msg c.msg, state := State.S_START_WALK },
    by simp [eval, hs, hq, hm], ?_⟩
  have ha2 : all_methods { c with msg := free_msg c.msg, state := State.S_START_WALK } := by
    intro a hmem
    simp only [hq, free_msg] at hmem
    exact ha a (by rw [hq]; exact List.mem_cons_of_mem _ hmem)
  exact yields_start_walk height _ rfl ha2 ht

/-- C9: from every reachable configuration with no timeout pending (the arriving
messages all carry a method string), and for every sequence of `rand()` outcomes, the
drain loop stops within 5 passes through the switch: it returns a configuration in
which the 50 ms or the 5 s timeout is armed and a current frame is selected.  More
passes allowed give the same result, so the loop never runs on through instant
states. -/
theorem drain_yields (width height : Int) (c : Config) (rnd : Nat → Nat)
    (h : Reachable has_method width height c) (ht : timerisset c.timeout = false) :
    ∃ c1, drain height rnd 5 c = some (.ok c1) ∧
      (c1.timeout = move_interval ∨ c1.timeout = pause_interval) ∧
      timerisset c1.timeout = true ∧ c1.curpms.isSome = true ∧
      ∀ fuel, 5 ≤ fuel → drain height rnd fuel c = some (.ok c1) := by
  have hg := reachable_grounded has_method width height c h
  have hp := reachable_pause_head has_method width height c h
  have ha := reachable_all_methods width height c h
  have hy : yields_within height 5 c := by
    cases hs : c.state with
    | S_START_WALK =>
      exact yields_mono height 4 5 c (by omega) (yields_start_walk height c hs ha ht)
    | S_WALK =>
      exact yields_mono height 3 5 c (by omega)
        (yields_walk height c hs (hg (Or.inl hs)).1 ha ht)
    | S_START_JUMP =>
      exact yields_mono height 2 5 c (by omega)
        (yields_start_jump height c hs (hg (Or.inr (Or.inl hs))).1 ht)
    | S_JUMP => exact yields_jump height c hs ha ht
    | S_START_PAUSE =>
      exact yields_mono height 1 5 c (by omega) (yields_start_pause height c hs hp ht)
    | S_PAUSE => exact yields_pause height c hs hp ha ht
  obtain ⟨c1, hd, h1, h2, h3⟩ := hy rnd 5 (le_refl 5)
  refine ⟨c1, hd, h1, h2, h3, ?_⟩
  intro fuel hf
  obtain ⟨c2, hd2, _⟩ := hy rnd fuel hf
  have hmono : ∀ (n : Nat) (rn : Nat → Nat) (a : Config) (res : Except Fault Config),
      drain height rn n a = some res → drain height rn (n + 1) a = some res := by
    intro n
    induction n with
    | zero =>
      intro rn a res hr
      unfold drain at hr ⊢
      split at hr
      · rename_i harm; simp [harm] at hr ⊢; exact hr
      · simp at hr
    | succ n ih =>
      intro rn a res hr
      rw [drain] at hr ⊢
      split at hr
      · rename_i harm; simp [harm] at hr ⊢; exact hr
      · rename_i harm
        simp only [harm]
        cases he : eval height (rn 0) a with
        | error f => simp [he] at hr ⊢; exact hr
        | ok a1 =>
          simp only [he] at hr ⊢
          exact ih _ a1 res hr
  have hge : ∀ d, drain height rnd (5 + d) c = some (.ok c1) := by
    intro d
    induction d with
    | zero => exact hd
    | succ d ih => exact hmono _ rnd c _ ih
  obtain ⟨d, rfl⟩ : ∃ d, fuel = 5 + d := ⟨fuel - 5, by omega⟩
  exact hge d

theorem drain_yields_witness :
    Reachable has_method 1000 600
      { state := State.S_PAUSE, step := 0, x := -200, y := 400, dx := 10, dy := 0,
        msg := [⟨some "message", some "hello", none⟩], curpms := some 4,
        timeout := timer_zero } ∧
    timerisset timer_zero = false ∧
    ∃ c1, drain 600 (fun _ => 0) 5
        { state := State.S_PAUSE, step := 0, x := -200, y := 400, dx := 10, dy := 0,
          msg := [⟨some "message", some "hello", none⟩], curpms := some 4,
          timeout := timer_zero } = some (.ok c1) ∧
      (c1.timeout = move_interval ∨ c1.timeout = pause_interval) ∧
      timerisset c1.timeout = true ∧ c1.curpms.isSome = true ∧
      ∀ fuel, 5 ≤ fuel → drain 600 (fun _ => 0) fuel
        { state := State.S_PAUSE, step := 0, x := -200, y := 400, dx := 10, dy := 0,
          msg := [⟨some "message", some "hello", none⟩], curpms := some 4,
          timeout := timer_zero } = some (.ok c1) := by
  have h0 : Reachable has_method 1000 600 (startup 600) := Reachable.start
  have h1 := Reachable.pass 0 (startup 600)
    { state := State.S_WALK, step := 0, x := -200, y := 400, dx := 10, dy := 0,
      msg := [], curpms := none, timeout := timer_zero } h0 (by decide)
  have h2 := Reachable.notify ⟨some "message", some "hello", none⟩ _ h1 rfl
  have h3 := Reachable.pass 0 _
    { state := State.S_START_PAUSE, step := 0, x := -200, y := 400, dx := 10, dy := 0,
      msg := [⟨some "message", some "hello", none⟩], curpms := none,
      timeout := timer_zero } h2 (by decide)
  have h4 := Reachable.pass 0 _
    { state := State.S_PAUSE, step := 0, x := -200, y := 400, dx := 10, dy := 0,
      msg := [⟨some "message", some "hello", none⟩], curpms := some 4,
      timeout := pause_interval } h3 (by decide)
  have h5 := Reachable.timer timer_zero _ h4
  exact ⟨h5, rfl, drain_yields 1000 600 _ (fun _ => 0) h5 rfl⟩

/-- The bound of 5 passes is attained: from `PAUSE` with the timeout cleared, when
`rand()` makes the sprite jump, 4 passes do not reach a state that arms a timeout. -/
theorem drain_needs_five :
    drain 600 (fun _ => 0) 4
      { state := State.S_PAUSE, step := 0, x := -200, y := 400, dx := 10, dy := 0,
        msg := [⟨some "message", some "hello", none⟩], curpms := some 4,
        timeout := timer_zero } = none := by
  decide

/-! ## Notification payloads -/

theorem read_field_ok (body : Json) (key : String) (h : absent_or_string body key) :
    read_field body key = .ok (field_of body key) := by
  unfold read_field field_of
  rcases h with h | ⟨s, h⟩
  · simp [h]
  · simp [h, json_string_value, strdup]

/-- C4, as stated, fails: a payload that is valid JSON but has no `method` key (here the
object holding only `content`) is not dropped; on the empty queue the handler creates a
message with a null method, and the queue length goes from 0 to 1. -/
theorem payload_without_method_is_enqueued :
    property_notify (fun _ => some (Json.object [("content", Json.string "hi")]))
        (some "\x7b\"content\": \"hi\"\x7d") []
      = .ok [⟨none, some "hi", none⟩] ∧
    json_object_get (Json.object [("content", Json.string "hi")]) "method" = none ∧
    ([⟨none, some "hi", none⟩] : List MSG).length ≠ ([] : List MSG).length :=
  ⟨by decide, rfl, by decide⟩

/-- C4, amended: for every queue, a property read that fails or a payload that is not
valid JSON leaves the queue unchanged, no message is created.  A payload that is valid
JSON is not dropped for lacking fields: when each of `method`, `content`, `link` is
absent or a string, exactly one message is appended at the tail, the absent fields being
null. -/
theorem payload_errors (json_loads : String → Option Json) (msg : List MSG) :
    property_notify json_loads none msg = .ok msg ∧
    (∀ text, json_loads text = none → property_notify json_loads (some text) msg = .ok msg) ∧
    (∀ text body, json_loads text = some body →
      absent_or_string body "method" → absent_or_string body "content" →
      absent_or_string body "link" →
      property_notify json_loads (some text) msg =
        .ok (msg ++ [{ method := field_of body "method", content := field_of body "content",
                       link := field_of body "link" }])) := by
  refine ⟨rfl, ?_, ?_⟩
  · intro text h
    simp [property_notify, h]
  · intro text body h h1 h2 h3
    simp [property_notify, h, read_field_ok body _ h1, read_field_ok body _ h2,
      read_field_ok body _ h3, enqueue_eq_append]

theorem payload_errors_witness :
    property_notify (fun t => if t = "oops" then none else some (Json.object []))
        (some "oops") [⟨some "jump", none, none⟩]
      = .ok [⟨some "jump", none, none⟩] :=
  (payload_errors (fun t => if t = "oops" then none else some (Json.object []))
    [⟨some "jump", none, none⟩]).2.1 "oops" (by simp)

/-! ## The mirrored sprites -/

theorem put_row (s : XImage) (w y : Nat) (n : Nat) (d : XImage) (hw : d.width = w)
    (hn : n ≤ w) (hlen : y * w + w ≤ d.data.length) :
    ((List.range n).foldl (fun d x => XPutPixel d (w - x - 1) y (XGetPixel s x y)) d).width = w ∧
    ((List.range n).foldl (fun d x => XPutPixel d (w - x - 1) y (XGetPixel s x y)) d).height
      = d.height ∧
    ((List.range n).foldl (fun d x => XPutPixel d (w - x - 1) y (XGetPixel s x y)) d).depth
      = d.depth ∧
    ((List.range n).foldl (fun d x => XPutPixel d (w - x - 1) y (XGetPixel s x y)) d).data.length
      = d.data.length ∧
    ∀ i, ((List.range n).foldl
        (fun d x => XPutPixel d (w - x - 1) y (XGetPixel s x y)) d).data[i]? =
      if y * w + (w - n) ≤ i ∧ i < y * w + w then
        some (XGetPixel s (y * w + w - 1 - i) y % 2 ^ d.depth)
      else d.data[i]? := by
  induction n with
  | zero =>
    refine ⟨hw, rfl, rfl, rfl, ?_⟩
    intro i
    have : ¬ (y * w + (w - 0) ≤ i ∧ i < y * w + w) := by omega
    rw [List.range_zero, List.foldl_nil, if_neg this]
  | succ n ih =>
    obtain ⟨h1, h2, h3, h4, h5⟩ := ih (by omega)
    rw [List.range_succ, List.foldl_append]
    simp only [List.foldl_cons, List.foldl_nil]
    generalize (List.range n).foldl
      (fun d x => XPutPixel d (w - x - 1) y (XGetPixel s x y)) d = R at h1 h2 h3 h4 h5
    refine ⟨h1, h2, h3, by simp [XPutPixel, h4], ?_⟩
    intro i
    simp only [XPutPixel, List.getElem?_set, h1, h3, h4, h5]
    by_cases hi : y * w + (w - n - 1) = i
    · have e1 : y * w + (w - n - 1) < d.data.length := by omega
      have e2 : y * w + (w - (n + 1)) ≤ i ∧ i < y * w + w := by omega
      have e3 : y * w + w - 1 - i = n := by omega
      simp [hi, e1, e2, e3]
      omega
    · by_cases hr : y * w + (w - n) ≤ i ∧ i < y * w + w
      · have e2 : y * w + (w - (n + 1)) ≤ i ∧ i < y * w + w := by omega
        simp [hi, hr, e2]
      · have e2 : ¬ (y * w + (w - (n + 1)) ≤ i ∧ i < y * w + w) := by omega
        simp [hi, hr, e2]

theorem put_rows (s : XImage) (w h : Nat) (n : Nat) (d : XImage) (hw : d.width = w)
    (hn : n ≤ h) (hlen : d.data.length = w * h) :
    ((List.range n).foldl (fun d y => (List.range w).foldl
        (fun d x => XPutPixel d (w - x - 1) y (XGetPixel s x y)) d) d).width = w ∧
    ((List.range n).foldl (fun d y => (List.range w).foldl
        (fun d x => XPutPixel d (w - x - 1) y (XGetPixel s x y)) d) d).height = d.height ∧
    ((List.range n).foldl (fun d y => (List.range w).foldl
        (fun d x => XPutPixel d (w - x - 1) y (XGetPixel s x y)) d) d).depth = d.depth ∧
    ((List.range n).foldl (fun d y => (List.range w).foldl
        (fun d x => XPutPixel d (w - x - 1) y (XGetPixel s x y)) d) d).data.length
      = d.data.length ∧
    ∀ i, ((List.range n).foldl (fun d y => (List.range w).foldl
        (fun d x => XPutPixel d (w - x - 1) y (XGetPixel s x y)) d) d).data[i]? =
      if i < n * w then some (XGetPixel s (w - 1 - i % w) (i / w) % 2 ^ d.depth)
      else d.data[i]? := by
  induction n with
  | zero =>
    refine ⟨hw, rfl, rfl, rfl, ?_⟩
    intro i
    rw [List.range_zero, List.foldl_nil, if_neg (by omega)]
  | succ n ih =>
    obtain ⟨h1, h2, h3, h4, h5⟩ := ih (by omega)
    rw [List.range_succ, List.foldl_append]
    simp only [List.foldl_cons, List.foldl_nil]
    generalize (List.range n).foldl (fun d y => (List.range w).foldl
      (fun d x => XPutPixel d (w - x - 1) y (XGetPixel s x y)) d) d = R at h1 h2 h3 h4 h5
    have hrow : n * w + w ≤ R.data.length := by
      rw [h4, hlen]
      calc n * w + w = w * (n + 1) := by ring
        _ ≤ w * h := Nat.mul_le_mul_left w (by omega)
    obtain ⟨r1, r2, r3, r4, r5⟩ := put_row s w n w R h1 (le_refl w) hrow
    refine ⟨r1, r2.trans h2, r3.trans h3, r4.trans h4, ?_⟩
    intro i
    rw [r5, h3, h5]
    have hsucc : (n + 1) * w = n * w + w := by ring
    by_cases hi : n * w + (w - w) ≤ i ∧ i < n * w + w
    · have hlt : i < (n + 1) * w := by omega
      have hwpos : 0 < w := by omega
      have hdiv : i / w = n := by
        apply Nat.div_eq_of_lt_le
        · omega
        · omega
      have hmod : i % w = i - n * w := by
        have := Nat.div_add_mod i w
        rw [hdiv] at this
        have hc : w * n = n * w := Nat.mul_comm w n
        omega
      rw [if_pos hi, if_pos hlt, hdiv, hmod]
      congr 3
      omega
    · rw [if_neg hi]
      by_cases hlo : i < n * w
      · rw [if_pos hlo, if_pos (by omega)]
      · rw [if_neg hlo, if_neg (by omega)]

theorem mirror_pixel_fold (w y : Nat) (l : List Nat) (m : Mirror) :
    l.foldl (mirror_pixel w y) m =
      { src_body := m.src_body
        src_mask := m.src_mask
        dst_body := l.foldl
          (fun d x => XPutPixel d (w - x - 1) y (XGetPixel m.src_body x y)) m.dst_body
        dst_mask := l.foldl
          (fun d x => XPutPixel d (w - x - 1) y (XGetPixel m.src_mask x y)) m.dst_mask } := by
  induction l generalizing m with
  | nil => rfl
  | cons a t ih => rw [List.foldl_cons, ih]; rfl

theorem mirror_row_fold (w : Nat) (l : List Nat) (m : Mirror) :
    l.foldl (mirror_row w) m =
      { src_body := m.src_body
        src_mask := m.src_mask
        dst_body := l.foldl (fun d y => (List.range w).foldl
          (fun d x => XPutPixel d (w - x - 1) y (XGetPixel m.src_body x y)) d) m.dst_body
        dst_mask := l.foldl (fun d y => (List.range w).foldl
          (fun d x => XPutPixel d (w - x - 1) y (XGetPixel m.src_mask x y)) d) m.dst_mask } := by
  induction l generalizing m with
  | nil => rfl
  | cons a t ih => rw [List.foldl_cons, ih, mirror_row, mirror_pixel_fold]; rfl

theorem pixel_lt (s : XImage) (hs : s.wf) (x y : Nat) : XGetPixel s x y < 2 ^ s.depth := by
  unfold XGetPixel
  rw [List.getD_eq_getElem?_getD]
  cases hget : s.data[y * s.width + x]? with
  | none => simp
  | some p =>
    simp only [Option.getD_some]
    exact hs.2 p (List.getElem?_mem hget)

theorem index_div_mod (w x y : Nat) (hx : x < w) :
    (y * w + x) / w = y ∧ (y * w + x) % w = x := by
  constructor
  · rw [Nat.add_comm, Nat.add_mul_div_right _ _ (by omega), Nat.div_eq_of_lt hx, Nat.zero_add]
  · rw [Nat.add_comm, Nat.add_mul_mod_self_right, Nat.mod_eq_of_lt hx]

theorem mirrored_pixel (s d : XImage) (w h : Nat) (hs : s.wf) (hd : d.width = w)
    (hdepth : d.depth = s.depth) (hlen : d.data.length = w * h) (x y : Nat)
    (hx : x < w) (hy : y < h) :
    XGetPixel ((List.range h).foldl (fun d y => (List.range w).foldl
        (fun d x => XPutPixel d (w - x - 1) y (XGetPixel s x y)) d) d) (w - 1 - x) y
      = XGetPixel s x y := by
  obtain ⟨r1, _, _, _, r5⟩ := put_rows s w h h d hd (le_refl h) hlen
  have hidx := index_div_mod w (w - 1 - x) y (by omega)
  have hlt : y * w + (w - 1 - x) < h * w := by
    calc y * w + (w - 1 - x) < y * w + w := by omega
      _ = (y + 1) * w := by ring
      _ ≤ h * w := Nat.mul_le_mul_right w (by omega)
  have hxx : w - 1 - (w - 1 - x) = x := by omega
  conv_lhs => rw [XGetPixel, r1, List.getD_eq_getElem?_getD, r5, if_pos hlt, hidx.1, hidx.2, hxx]
  rw [Option.getD_some, hdepth]
  exact Nat.mod_eq_of_lt (pixel_lt s hs x y)

theorem put_image_pixel (img : XImage) (w h x y : Nat) (hx : x < w) (hy : y < h) :
    (XPutImage img w h).pixel x y = XGetPixel img x y := by
  have hidx := index_div_mod w x y hx
  have hlt : y * w + x < w * h := by
    calc y * w + x < y * w + w := by omega
      _ = w * (y + 1) := by ring
      _ ≤ w * h := Nat.mul_le_mul_left w (by omega)
  unfold Pixmap.pixel XPutImage
  simp only [List.getD_eq_getElem?_getD, List.getElem?_map, List.getElem?_range hlt,
    Option.map_some', Option.getD_some, hidx.1, hidx.2]

theorem sub_image_fields (img : XImage) (w h : Nat) :
    (XSubImage img 0 0 w h).width = w ∧ (XSubImage img 0 0 w h).height = h ∧
    (XSubImage img 0 0 w h).depth = img.depth ∧
    (XSubImage img 0 0 w h).data.length = w * h := by
  simp [XSubImage]

theorem reverse_ok (mem : Alloc) (body mask : XImage)
    (hw : body.width = mask.width) (hh : body.height = mask.height)
    (hmem : mem = ⟨true, true, true⟩) :
    create_horizontal_reverse_image_sprite mem (some ⟨some body, some mask⟩) =
      .ok (some (⟨some body, some mask⟩,
        ⟨some ((List.range body.height).foldl (fun d y => (List.range body.width).foldl
            (fun d x => XPutPixel d (body.width - x - 1) y (XGetPixel body x y)) d)
            (XSubImage body 0 0 body.width body.height)),
         some ((List.range body.height).foldl (fun d y => (List.range body.width).foldl
            (fun d x => XPutPixel d (body.width - x - 1) y (XGetPixel mask x y)) d)
            (XSubImage mask 0 0 body.width body.height))⟩)) := by
  subst hmem
  simp [create_horizontal_reverse_image_sprite, is_image_sprite_valid, hw, hh, mirror_rows,
    mirror_row_fold]

theorem reverse_spec (mem : Alloc) (body mask : XImage) (hb : body.wf) (hm : mask.wf)
    (hw : body.width = mask.width) (hh : body.height = mask.height)
    (hmem : mem = ⟨true, true, true⟩) :
    ∃ db dm,
      create_horizontal_reverse_image_sprite mem (some ⟨some body, some mask⟩) =
        .ok (some (⟨some body, some mask⟩, ⟨some db, some dm⟩)) ∧
      db.width = body.width ∧ db.height = body.height ∧
      dm.width = body.width ∧ dm.height = body.height ∧
      ∀ x y, x < body.width → y < body.height →
        XGetPixel db (body.width - 1 - x) y = XGetPixel body x y ∧
        XGetPixel dm (body.width - 1 - x) y = XGetPixel mask x y := by
  obtain ⟨b1, b2, b3, b4⟩ := sub_image_fields body body.width body.height
  obtain ⟨m1, m2, m3, m4⟩ := sub_image_fields mask body.width body.height
  obtain ⟨p1, p2, _, _, _⟩ := put_rows body body.width body.height body.height
    (XSubImage body 0 0 body.width body.height) b1 (le_refl _) b4
  obtain ⟨q1, q2, _, _, _⟩ := put_rows mask body.width body.height body.height
    (XSubImage mask 0 0 body.width body.height) m1 (le_refl _) m4
  refine ⟨_, _, reverse_ok mem body mask hw hh hmem, p1, p2.trans b2, q1, q2.trans m2, ?_⟩
  intro x y hx hy
  exact ⟨mirrored_pixel body _ body.width body.height hb b1 b3 b4 x y hx hy,
    mirrored_pixel mask _ body.width body.height hm m1 m3 m4 x y hx hy⟩

theorem convert_ok (mem : Alloc) (body mask : XImage)
    (hw : body.width = mask.width) (hh : body.height = mask.height)
    (hmem : mem = ⟨true, true, true⟩) :
    convert_image_sprite_to_pixmap_sprite mem (some ⟨some body, some mask⟩) =
      .ok (some { body := some (XPutImage body body.width body.height)
                  mask := some (XPutImage mask body.width body.height)
                  width := body.width
                  height := body.height }) := by
  subst hmem
  simp [convert_image_sprite_to_pixmap_sprite, is_image_sprite_valid, is_pixmap_sprite_valid,
    hw, hh]

theorem load_frame_ok (xpm : Nat → Option ImageSprite) (mem : Nat → Alloc) (i : Nat)
    (body mask : XImage) (hx : xpm i = some ⟨some body, some mask⟩)
    (hb : body.wf) (hm : mask.wf)
    (hw : body.width = mask.width) (hh : body.height = mask.height)
    (hmem : ∀ j, mem j = ⟨true, true, true⟩) :
    ∃ f g : PixmapSprite,
      (∀ pmss, load_frame xpm mem pmss i = .ok ((pmss.set i (some f)).set (i + 5) (some g))) ∧
      f.width = body.width ∧ f.height = body.height ∧ frame_mirror f g := by
  obtain ⟨db, dm, hrev, d1, d2, d3, d4, hpix⟩ :=
    reverse_spec (mem i) body mask hb hm hw hh (hmem i)
  have hc1 := convert_ok (mem (i + 5)) body mask hw hh (hmem _)
  have hc2 := convert_ok (mem (i + 10)) db dm (d1.trans d3.symm) (d2.trans d4.symm) (hmem _)
  refine ⟨{ body := some (XPutImage body body.width body.height)
            mask := some (XPutImage mask body.width body.height)
            width := body.width
            height := body.height },
          { body := some (XPutImage db db.width db.height)
            mask := some (XPutImage dm db.width db.height)
            width := db.width
            height := db.height }, ?_, rfl, rfl, ?_⟩
  · intro pmss
    simp only [load_frame, hx, hrev, hc1, Option.map_some', hc2]
  · refine ⟨_, _, _, _, rfl, rfl, rfl, rfl, d1, d2, ?_⟩
    intro x y hx hy
    simp only at hx hy
    have hx2 : body.width - 1 - x < db.width := by omega
    have hy2 : y < db.height := by omega
    obtain ⟨e1, e2⟩ := hpix x y hx hy
    simp only [d1, d2] at hx2 hy2 ⊢
    rw [put_image_pixel db _ _ _ _ hx2 hy, put_image_pixel dm _ _ _ _ hx2 hy,
      put_image_pixel body _ _ _ _ hx hy, put_image_pixel mask _ _ _ _ hx hy]
    exact ⟨e1, e2⟩

/-- C8: for every valid source sprite (body and mask of equal size, every pixel within
the depth of its image), when the allocations succeed,
`create_horizontal_reverse_image_sprite` returns a sprite of the same width and height
whose body pixel at `(w - 1 - x, y)` is the source body pixel at `(x, y)` for all
`x < w`, `y < h`, and likewise for the mask, and it leaves the source as it was.  So in
the sprite table that `main` builds from five valid sprites, frame `i + 5` is the
horizontal reflection of frame `i`, for every `i < 5`. -/
theorem mirror_is_reflection :
    (∀ (mem : Alloc) (body mask : XImage), body.wf → mask.wf →
      body.width = mask.width → body.height = mask.height → mem = ⟨true, true, true⟩ →
      ∃ db dm,
        create_horizontal_reverse_image_sprite mem (some ⟨some body, some mask⟩) =
          .ok (some (⟨some body, some mask⟩, ⟨some db, some dm⟩)) ∧
        db.width = body.width ∧ db.height = body.height ∧
        dm.width = body.width ∧ dm.height = body.height ∧
        ∀ x y, x < body.width → y < body.height →
          XGetPixel db (body.width - 1 - x) y = XGetPixel body x y ∧
          XGetPixel dm (body.width - 1 - x) y = XGetPixel mask x y) ∧
    (∀ (xpm : Nat → Option ImageSprite) (mem : Nat → Alloc) (body mask : Nat → XImage),
      (∀ i, i < 5 → xpm i = some ⟨some (body i), some (mask i)⟩ ∧
        (body i).wf ∧ (mask i).wf ∧
        (body i).width = (mask i).width ∧ (body i).height = (mask i).height) →
      (∀ j, mem j = ⟨true, true, true⟩) →
      ∃ pmss, load_frames xpm mem = .ok pmss ∧ pmss.length = 10 ∧
        ∀ i, i < 5 → ∃ f g, pmss[i]? = some (some f) ∧ pmss[i + 5]? = some (some g) ∧
          f.width = (body i).width ∧ f.height = (body i).height ∧ frame_mirror f g) := by
  refine ⟨reverse_spec, ?_⟩
  intro xpm mem body mask hx hmem
  have hi : ∀ i, i < 5 → ∃ f g : PixmapSprite,
      (∀ pmss, load_frame xpm mem pmss i = .ok ((pmss.set i (some f)).set (i + 5) (some g))) ∧
      f.width = (body i).width ∧ f.height = (body i).height ∧ frame_mirror f g := by
    intro i hlt
    obtain ⟨h1, h2, h3, h4, h5⟩ := hx i hlt
    exact load_frame_ok xpm mem i (body i) (mask i) h1 h2 h3 h4 h5 hmem
  obtain ⟨f0, g0, l0, w0, e0, m0⟩ := hi 0 (by omega)
  obtain ⟨f1, g1, l1, w1, e1, m1⟩ := hi 1 (by omega)
  obtain ⟨f2, g2, l2, w2, e2, m2⟩ := hi 2 (by omega)
  obtain ⟨f3, g3, l3, w3, e3, m3⟩ := hi 3 (by omega)
  obtain ⟨f4, g4, l4, w4, e4, m4⟩ := hi 4 (by omega)
  have hr : List.range 5 = [0, 1, 2, 3, 4] := by decide
  refine ⟨[some f0, some f1, some f2, some f3, some f4,
           some g0, some g1, some g2, some g3, some g4], ?_, rfl, ?_⟩
  · simp only [load_frames, hr, List.foldlM_cons, List.foldlM_nil, l0, l1, l2, l3, l4]
    rfl
  · intro i hlt
    interval_cases i
    · exact ⟨f0, g0, rfl, rfl, w0, e0, m0⟩
    · exact ⟨f1, g1, rfl, rfl, w1, e1, m1⟩
    · exact ⟨f2, g2, rfl, rfl, w2, e2, m2⟩
    · exact ⟨f3, g3, rfl, rfl, w3, e3, m3⟩
    · exact ⟨f4, g4, rfl, rfl, w4, e4, m4⟩

theorem mirror_is_reflection_witness :
    (∃ db dm,
      create_horizontal_reverse_image_sprite ⟨true, true, true⟩
          (some ⟨some ⟨3, 2, 8, [1, 2, 3, 4, 5, 6]⟩, some ⟨3, 2, 1, [1, 0, 0, 0, 1, 1]⟩⟩) =
        .ok (some (⟨some ⟨3, 2, 8, [1, 2, 3, 4, 5, 6]⟩, some ⟨3, 2, 1, [1, 0, 0, 0, 1, 1]⟩⟩,
                   ⟨some db, some dm⟩)) ∧
      db.width = 3 ∧ db.height = 2 ∧ dm.width = 3 ∧ dm.height = 2 ∧
      ∀ x y, x < 3 → y < 2 →
        XGetPixel db (3 - 1 - x) y = XGetPixel ⟨3, 2, 8, [1, 2, 3, 4, 5, 6]⟩ x y ∧
        XGetPixel dm (3 - 1 - x) y = XGetPixel ⟨3, 2, 1, [1, 0, 0, 0, 1, 1]⟩ x y) ∧
    ∃ pmss,
      load_frames
          (fun _ => some ⟨some ⟨3, 2, 8, [1, 2, 3, 4, 5, 6]⟩, some ⟨3, 2, 1, [1, 0, 0, 0, 1, 1]⟩⟩)
          (fun _ => ⟨true, true, true⟩) = .ok pmss ∧
      pmss.length = 10 ∧
      ∀ i, i < 5 → ∃ f g, pmss[i]? = some (some f) ∧ pmss[i + 5]? = some (some g) ∧
        f.width = 3 ∧ f.height = 2 ∧ frame_mirror f g :=
  ⟨mirror_is_reflection.1 ⟨true, true, true⟩ ⟨3, 2, 8, [1, 2, 3, 4, 5, 6]⟩
      ⟨3, 2, 1, [1, 0, 0, 0, 1, 1]⟩ ⟨by decide, by decide⟩ ⟨by decide, by decide⟩ rfl rfl rfl,
   mirror_is_reflection.2
      (fun _ => some ⟨some ⟨3, 2, 8, [1, 2, 3, 4, 5, 6]⟩, some ⟨3, 2, 1, [1, 0, 0, 0, 1, 1]⟩⟩)
      (fun _ => ⟨true, true, true⟩) (fun _ => ⟨3, 2, 8, [1, 2, 3, 4, 5, 6]⟩)
      (fun _ => ⟨3, 2, 1, [1, 0, 0, 0, 1, 1]⟩)
      (fun _ _ => ⟨rfl,
        (⟨by decide, by decide⟩ : XImage.wf ⟨3, 2, 8, [1, 2, 3, 4, 5, 6]⟩),
        (⟨by decide, by decide⟩ : XImage.wf ⟨3, 2, 1, [1, 0, 0, 0, 1, 1]⟩), rfl, rfl⟩)
      (fun _ => rfl)⟩

/-- The mirror on a 3 by 2 sprite, evaluated. -/
theorem mirror_example :
    create_horizontal_reverse_image_sprite ⟨true, true, true⟩
        (some ⟨some ⟨3, 2, 8, [1, 2, 3, 4, 5, 6]⟩, some ⟨3, 2, 1, [1, 0, 0, 0, 1, 1]⟩⟩) =
      .ok (some (⟨some ⟨3, 2, 8, [1, 2, 3, 4, 5, 6]⟩, some ⟨3, 2, 1, [1, 0, 0, 0, 1, 1]⟩⟩,
                 ⟨some ⟨3, 2, 8, [3, 2, 1, 6, 5, 4]⟩, some ⟨3, 2, 1, [0, 0, 1, 1, 1, 0]⟩⟩)) := by
  decide

end XGopher
